import Mathlib

/-!
Verification of the behavior-tracking engine (`engine.py`) of the Beehav
repository, as a shallow embedding in Lean 4.

The embedding mirrors `BehaviorTracker` and its operations `add_subject`
(engine.py lines 61-73), `add_behavior_definition` (lines 75-89),
`log_score` (lines 91-105) and `calculate_all_averages` (lines 107-133).
Pandas dataframes become lists of records; the six persisted CSV files
become a `FileStore` record; `df.to_csv` becomes copying the in-memory
table into the `FileStore`.  Library calls that engine.py relies on
(Python `int()`, `str.strip()`, `str.lower()`, `pandas.to_datetime`,
`Series.dt.isocalendar`, `groupby(...).agg(mean, count)`) are modelled
from their documented semantics, since their code is not part of the
repository.  Scores are integers, so the float mean of pandas is modelled
as the exact rational mean.
-/

/-- ASCII whitespace recognised by Python `str.strip()` (the characters
exercised by this repository). -/
def isSpaceChar (c : Char) : Bool :=
  c == ' ' || c == '\t' || c == '\n' || c == '\r'

/-- Drop whitespace from both ends of a character list. -/
def trimChars (cs : List Char) : List Char :=
  ((cs.dropWhile isSpaceChar).reverse.dropWhile isSpaceChar).reverse

/-- Modelled from the spec and Python semantics: `str.strip()`. -/
def pyStrip (s : String) : String := ⟨trimChars s.data⟩

/-- Modelled from Python semantics: `str.lower()` (ASCII case folding as
used on subject labels). -/
def pyLower (s : String) : String := ⟨s.data.map Char.toLower⟩

/-- Value of a decimal digit character. -/
def digitVal (c : Char) : Option Nat :=
  if '0' ≤ c ∧ c ≤ '9' then some (c.toNat - '0'.toNat) else none

/-- Accumulating decimal parser over a digit list. -/
def parseDigitsAux : List Char → Nat → Option Nat
  | [], acc => some acc
  | c :: cs, acc =>
    match digitVal c with
    | none => none
    | some d => parseDigitsAux cs (acc * 10 + d)

/-- Parse a non-empty all-digit character list as a natural number. -/
def parseDigits : List Char → Option Nat
  | [] => none
  | cs => parseDigitsAux cs 0

/-- Modelled from Python semantics: `int(s)` on a decimal string, as used
by `log_score` and `add_behavior_definition` (engine.py lines 77, 93):
strips whitespace, accepts an optional sign, fails on anything else. -/
def pyInt (s : String) : Option Int :=
  match trimChars s.data with
  | '-' :: cs => (parseDigits cs).map fun n => -(n : Int)
  | '+' :: cs => (parseDigits cs).map fun n => (n : Int)
  | cs => (parseDigits cs).map fun n => (n : Int)

/-- A calendar date (proleptic Gregorian), the model of a pandas
datetime value. -/
structure CalDate where
  year : Int
  month : Nat
  day : Nat
deriving DecidableEq, Repr

/-- Gregorian leap-year rule. -/
def isLeap (y : Int) : Bool :=
  y % 4 == 0 && (y % 100 != 0 || y % 400 == 0)

/-- Days in a Gregorian month. -/
def daysInMonth (y : Int) (m : Nat) : Nat :=
  match m with
  | 1 => 31
  | 2 => if isLeap y then 29 else 28
  | 3 => 31
  | 4 => 30
  | 5 => 31
  | 6 => 30
  | 7 => 31
  | 8 => 31
  | 9 => 30
  | 10 => 31
  | 11 => 30
  | 12 => 31
  | _ => 0

/-- Days since 1970-01-01 of a Gregorian date (civil-from-days
construction; `/` on `Int` is Euclidean division, which is floor
division for the positive divisors used here). -/
def daysFromCivil (y : Int) (m d : Nat) : Int :=
  let yAdj := if m ≤ 2 then y - 1 else y
  let era := yAdj / 400
  let yoe := yAdj - era * 400
  let mp := (m + 9) % 12
  let doy : Nat := (153 * mp + 2) / 5 + d - 1
  let doe := yoe * 365 + yoe / 4 - yoe / 100 + (doy : Int)
  era * 146097 + doe - 719468

/-- ISO weekday: Monday = 1 .. Sunday = 7 (1970-01-01 was a Thursday). -/
def isoWeekday (dt : CalDate) : Nat :=
  ((daysFromCivil dt.year dt.month dt.day + 3) % 7).toNat + 1

/-- Ordinal day of the year, 1-based. -/
def dayOfYear (dt : CalDate) : Nat :=
  (daysFromCivil dt.year dt.month dt.day - daysFromCivil dt.year 1 1).toNat + 1

/-- Number of ISO weeks in an ISO week-numbering year: 53 iff the year
starts on a Thursday, or is a leap year starting on a Wednesday. -/
def isoWeeksInYear (y : Int) : Nat :=
  let wd := isoWeekday ⟨y, 1, 1⟩
  if wd = 4 ∨ (isLeap y = true ∧ wd = 3) then 53 else 52

/-- Modelled from pandas `Series.dt.isocalendar()` (engine.py lines
113-114), which implements ISO 8601: the (week-numbering year, week
number) of a date. -/
def isoCalendar (dt : CalDate) : Int × Nat :=
  let w := (dayOfYear dt + 10 - isoWeekday dt) / 7
  if w = 0 then (dt.year - 1, isoWeeksInYear (dt.year - 1))
  else if isoWeeksInYear dt.year < w then (dt.year + 1, 1)
  else (dt.year, w)

/-- Split a character list on the dash character. -/
def splitDashAux : List Char → List Char → List (List Char)
  | [], acc => [acc.reverse]
  | c :: cs, acc =>
    if c = '-' then acc.reverse :: splitDashAux cs []
    else splitDashAux cs (c :: acc)

/-- Split a character list on dashes into its segments. -/
def splitDash (cs : List Char) : List (List Char) := splitDashAux cs []

/-- Modelled from pandas `pd.to_datetime` on the ISO `YYYY-MM-DD` date
strings this repository produces and stores: parse the three dash-joined
decimal fields and validate the month and day ranges; `none` models the
`ValueError` pandas raises on an unparseable date. -/
def parseYMD (s : String) : Option CalDate :=
  match splitDash (trimChars s.data) with
  | [ys, ms, ds] =>
    match parseDigits ys, parseDigits ms, parseDigits ds with
    | some y, some m, some d =>
      if 1 ≤ m ∧ m ≤ 12 ∧ 1 ≤ d ∧ d ≤ daysInMonth (y : Int) m then
        some ⟨(y : Int), m, d⟩
      else none
    | _, _, _ => none
  | _ => none

/-- Decimal digits of `n`, left-padded with zeros to width `w`. -/
def padNum (w n : Nat) : String :=
  let ds := Nat.toDigits 10 n
  ⟨List.replicate (w - ds.length) '0' ++ ds⟩

/-- Modelled from Python `datetime.strftime("%Y-%m-%d")` (engine.py line
102): render a date as a zero-padded ISO string. -/
def formatYMD (d : CalDate) : String :=
  padNum 4 d.year.toNat ++ "-" ++ padNum 2 d.month ++ "-" ++ padNum 2 d.day

/-- The `Date` column of the daily-scores table: a raw string as stored
by `log_score`, or a parsed datetime after `calculate_all_averages` has
run `pd.to_datetime` over the column (engine.py line 111). -/
inductive DateVal where
  | raw (s : String)
  | parsed (d : CalDate)
deriving DecidableEq, Repr

/-- Modelled from `pd.to_datetime` applied to a `Date` column entry:
parses a raw string, passes an already-parsed datetime through. -/
def toDatetime : DateVal → Option CalDate
  | .raw s => parseYMD s
  | .parsed d => some d

/-- The datetime held by an already-parsed `Date` entry (model of the
`.dt` accessor; only applied after the column has been parsed). -/
def parsedDate (v : DateVal) : CalDate :=
  match v with
  | .parsed d => d
  | .raw _ => ⟨1970, 1, 1⟩

/-- A row of the `subjects` table (engine.py lines 9-12). -/
structure SubjectRow where
  SubjectID : Int
  SubjectLabel : String
  DateCreated : String
deriving DecidableEq, Repr

/-- A row of the `definitions` table (engine.py lines 13-16). -/
structure DefinitionRow where
  DefinitionID : Int
  SubjectID : Int
  BehaviorName : String
  Description : String
deriving DecidableEq, Repr

/-- A row of the `daily_scores` table (engine.py lines 17-20).  The four
optional fields model the helper columns `Year`, `WeekOfYear`, `Month`
and `Half` that `calculate_all_averages` adds to the dataframe (engine.py
lines 113-114, 120, 126); they are `none` until that method assigns
them. -/
structure ScoreRow where
  LogID : Int
  DefinitionID : Int
  Date : DateVal
  Score : Int
  Notes : String
  Year : Option Int := none
  WeekOfYear : Option Nat := none
  Month : Option Nat := none
  Half : Option Nat := none
deriving DecidableEq, Repr

/-- A row of one of the three average tables (engine.py lines 21-32).
`Bucket` is the granularity-specific key column: `WeekOfYear`, `Month`
or `Half`. -/
structure AvgRow where
  AverageID : Nat
  DefinitionID : Int
  Year : Int
  Bucket : Nat
  AverageScore : Rat
  DataPointsCount : Nat
deriving DecidableEq, Repr

/-- The six persisted CSV files (engine.py `DATABASE_SCHEMA`), modelled
as the record contents each file holds. -/
structure FileStore where
  subjects : List SubjectRow
  definitions : List DefinitionRow
  daily_scores : List ScoreRow
  weekly_averages : List AvgRow
  monthly_averages : List AvgRow
  semi_annual_averages : List AvgRow
deriving DecidableEq, Repr

/-- The `BehaviorTracker` state: the six in-memory dataframes plus the
persisted files.  `_save_df` (engine.py lines 57-59) is modelled by
copying the named in-memory table into `files`. -/
structure BehaviorTracker where
  subjects : List SubjectRow
  definitions : List DefinitionRow
  daily_scores : List ScoreRow
  weekly_averages : List AvgRow
  monthly_averages : List AvgRow
  semi_annual_averages : List AvgRow
  files : FileStore
deriving DecidableEq, Repr

/-- `_get_next_id` (engine.py lines 53-55): 1 on an empty table, else
the maximum existing id plus one. -/
def get_next_id (ids : List Int) : Int :=
  match ids with
  | [] => 1
  | x :: xs => xs.foldl max x + 1

/-- `add_subject` (engine.py lines 61-73).  `now` stands for the
`datetime.now()` timestamp, threaded in as a parameter to keep the model
a function. -/
def add_subject (now : String) (t : BehaviorTracker) (subject_label : String) :
    BehaviorTracker :=
  let label := pyStrip subject_label
  if label = "" then t
  else if (t.subjects.filter fun r => pyLower r.SubjectLabel == pyLower label) ≠ [] then t
  else
    let new_id := get_next_id (t.subjects.map (·.SubjectID))
    let new_subject : SubjectRow := ⟨new_id, label, now⟩
    let subjects := t.subjects ++ [new_subject]
    { t with subjects := subjects, files := { t.files with subjects := subjects } }

/-- `add_behavior_definition` (engine.py lines 75-89). -/
def add_behavior_definition (t : BehaviorTracker)
    (subject_id behavior_name description : String) : BehaviorTracker :=
  if pyStrip behavior_name = "" then t
  else
    match pyInt subject_id with
    | none => t
    | some sid =>
      if (t.subjects.filter fun r => r.SubjectID == sid) = [] then t
      else
        let new_id := get_next_id (t.definitions.map (·.DefinitionID))
        let nd : DefinitionRow := ⟨new_id, sid, pyStrip behavior_name, pyStrip description⟩
        let defs := t.definitions ++ [nd]
        { t with definitions := defs, files := { t.files with definitions := defs } }

/-- The `new_log_entry` record built by `log_score` (engine.py lines
99-103): next id, resolved definition id, date normalised to
`YYYY-MM-DD`, the score and the stripped notes. -/
def scoreEntry (t : BehaviorTracker) (did sc : Int) (d : CalDate) (notes : String) :
    ScoreRow :=
  { LogID := get_next_id (t.daily_scores.map (·.LogID)), DefinitionID := did,
    Date := .raw (formatYMD d), Score := sc, Notes := pyStrip notes }

/-- Appending a row to the daily-scores table and saving it (engine.py
lines 104-105). -/
def appendScore (t : BehaviorTracker) (e : ScoreRow) : BehaviorTracker :=
  { t with daily_scores := t.daily_scores ++ [e],
           files := { t.files with daily_scores := t.daily_scores ++ [e] } }

/-- `log_score` (engine.py lines 91-105).  The `Except.error` case models
the uncaught `ValueError` that `pd.to_datetime(date)` on line 102 raises
for an unparseable date (that call sits outside the `try` block, which
only guards the two `int()` conversions). -/
def log_score (t : BehaviorTracker) (definition_id date score notes : String) :
    Except String BehaviorTracker :=
  match pyInt definition_id, pyInt score with
  | some did, some sc =>
    if ¬ (1 ≤ sc ∧ sc ≤ 10) then .ok t
    else if (t.definitions.filter fun r => r.DefinitionID == did) = [] then .ok t
    else
      match parseYMD date with
      | none => .error "DateParseError"
      | some d => .ok (appendScore t (scoreEntry t did sc d notes))
  | _, _ => .ok t

/-- `pd.to_datetime(scores_df['Date'])` (engine.py line 111): parse every
`Date` entry of the column, failing wholesale (the raised `ValueError`)
when any entry is unparseable. -/
def parseAll : List ScoreRow → Option (List ScoreRow)
  | [] => some []
  | r :: rs =>
    match toDatetime r.Date with
    | none => none
    | some d => (parseAll rs).map fun rest => { r with Date := DateVal.parsed d } :: rest

/-- Column assignments on lines 113-114: `Year` from the ISO calendar
year, `WeekOfYear` from the ISO week number. -/
def setIsoCols (r : ScoreRow) : ScoreRow :=
  let d := parsedDate r.Date
  { r with Year := some (isoCalendar d).1, WeekOfYear := some (isoCalendar d).2 }

/-- Column assignment on line 120: `Month` from the calendar month. -/
def setMonthCol (r : ScoreRow) : ScoreRow :=
  { r with Month := some (parsedDate r.Date).month }

/-- Column assignment on line 126: `Half` from `(month - 1) // 6 + 1`. -/
def setHalfCol (r : ScoreRow) : ScoreRow :=
  { r with Half := some (((parsedDate r.Date).month - 1) / 6 + 1) }

/-- Grouping key of the weekly `groupby` (line 115): the `DefinitionID`,
`Year` and `WeekOfYear` columns. -/
def weeklyKey (r : ScoreRow) : Int × Int × Nat :=
  (r.DefinitionID, r.Year.getD 0, r.WeekOfYear.getD 0)

/-- Grouping key of the monthly `groupby` (line 121): the `DefinitionID`,
`Year` and `Month` columns.  Note `Year` here is still the ISO
week-numbering year assigned on line 113. -/
def monthlyKey (r : ScoreRow) : Int × Int × Nat :=
  (r.DefinitionID, r.Year.getD 0, r.Month.getD 0)

/-- Grouping key of the semi-annual `groupby` (line 127): the
`DefinitionID`, `Year` and `Half` columns. -/
def semiKey (r : ScoreRow) : Int × Int × Nat :=
  (r.DefinitionID, r.Year.getD 0, r.Half.getD 0)

/-- Lexicographic order on grouping keys, the sort order pandas
`groupby` applies to group keys. -/
def keyLe (a b : Int × Int × Nat) : Bool :=
  decide (a.1 < b.1 ∨ (a.1 = b.1 ∧ (a.2.1 < b.2.1 ∨ (a.2.1 = b.2.1 ∧ a.2.2 ≤ b.2.2))))

/-- Insert a key into an already sorted key list. -/
def insertSorted (a : Int × Int × Nat) : List (Int × Int × Nat) → List (Int × Int × Nat)
  | [] => [a]
  | b :: bs => if keyLe a b then a :: b :: bs else b :: insertSorted a bs

/-- Sort a key list lexicographically (insertion sort). -/
def sortKeys (l : List (Int × Int × Nat)) : List (Int × Int × Nat) :=
  l.foldr insertSorted []

/-- Modelled from `groupby([...])['Score'].agg(['mean', 'count'])`
(engine.py lines 115, 121, 127): one output entry per distinct key, in
sorted key order, carrying the exact mean and the count of the rows with
that key. -/
def groupAgg (key : ScoreRow → Int × Int × Nat) (rows : List ScoreRow) :
    List ((Int × Int × Nat) × Rat × Nat) :=
  (sortKeys (rows.map key).dedup).map fun k =>
    let grp := rows.filter fun r => decide (key r = k)
    (k, mkRat (grp.map (·.Score)).sum grp.length, grp.length)

/-- `avg['AverageID'] = range(1, len + 1)` followed by the column
selection (engine.py lines 117-118, 123-124, 129-130): turn the grouped
aggregates into average rows with dense sequential ids starting at `i`. -/
def withIds : Nat → List ((Int × Int × Nat) × Rat × Nat) → List AvgRow
  | _, [] => []
  | i, g :: gs =>
    { AverageID := i, DefinitionID := g.1.1, Year := g.1.2.1, Bucket := g.1.2.2,
      AverageScore := g.2.1, DataPointsCount := g.2.2 } :: withIds (i + 1) gs

/-- The body of `calculate_all_averages` acting on the daily-scores rows
(engine.py lines 111-130): parse the `Date` column, assign the helper
columns stage by stage, and build the three average tables.  Returns the
mutated daily-scores rows together with the weekly, monthly and
semi-annual tables; `none` models the `ValueError` of an unparseable
date. -/
def computeAverages (scores : List ScoreRow) :
    Option (List ScoreRow × List AvgRow × List AvgRow × List AvgRow) :=
  match parseAll scores with
  | none => none
  | some rows0 =>
    let rows1 := rows0.map setIsoCols
    let weekly := withIds 1 (groupAgg weeklyKey rows1)
    let rows2 := rows1.map setMonthCol
    let monthly := withIds 1 (groupAgg monthlyKey rows2)
    let rows3 := rows2.map setHalfCol
    let semi := withIds 1 (groupAgg semiKey rows3)
    some (rows3, weekly, monthly, semi)

/-- The state change at the end of `calculate_all_averages`: the
daily-scores dataframe keeps its in-place mutations, the three in-memory
average tables are replaced, and only those three tables are saved to
disk (engine.py lines 118, 124, 130, 132-133); the daily-scores file is
not rewritten. -/
def applyAverages (t : BehaviorTracker) (rows3 : List ScoreRow)
    (weekly monthly semi : List AvgRow) : BehaviorTracker :=
  let files' :=
    { t.files with
      weekly_averages := weekly
      monthly_averages := monthly
      semi_annual_averages := semi }
  { t with
    daily_scores := rows3
    weekly_averages := weekly
    monthly_averages := monthly
    semi_annual_averages := semi
    files := files' }

/-- `calculate_all_averages` (engine.py lines 107-133): an immediate
return on an empty daily-scores table; otherwise the in-memory
daily-scores dataframe is mutated in place (parsed dates, helper
columns), the three average tables are replaced, and only those three
tables are persisted. -/
def calculate_all_averages (t : BehaviorTracker) : Except String BehaviorTracker :=
  if t.daily_scores = [] then .ok t
  else
    match computeAverages t.daily_scores with
    | none => .error "DateParseError"
    | some (rows3, weekly, monthly, semi) =>
      .ok (applyAverages t rows3 weekly monthly semi)

/-- An empty file store with one subject and one behavior definition,
used as a concrete evaluation state. -/
def sampleFiles : FileStore :=
  { subjects := [⟨1, "Rex", "2023-01-01 10:00:00"⟩],
    definitions := [⟨1, 1, "Sit", ""⟩],
    daily_scores := [], weekly_averages := [], monthly_averages := [],
    semi_annual_averages := [] }

/-- A tracker with one subject and one behavior definition and no scores. -/
def sampleTracker : BehaviorTracker :=
  { subjects := sampleFiles.subjects, definitions := sampleFiles.definitions,
    daily_scores := [], weekly_averages := [], monthly_averages := [],
    semi_annual_averages := [], files := sampleFiles }

/-- A daily-score row dated 2023-01-01 (a Sunday, ISO week 52 of 2022). -/
def sampleRow : ScoreRow :=
  { LogID := 1, DefinitionID := 1, Date := .raw "2023-01-01", Score := 5, Notes := "" }

/-- `sampleTracker` after logging `sampleRow`. -/
def sampleLogged : BehaviorTracker :=
  { sampleTracker with daily_scores := [sampleRow],
                       files := { sampleFiles with daily_scores := [sampleRow] } }

/-- A tracker with no daily scores but a leftover (stale) weekly average
row, to observe that an empty-input aggregation run leaves it in place. -/
def staleTracker : BehaviorTracker :=
  { sampleTracker with weekly_averages := [⟨1, 1, 2022, 52, mkRat 5 1, 1⟩] }

/-! ## Helper lemmas about the list machinery of the aggregation engine -/

theorem map_id_of_forall_mem {α : Type} (l : List α) (f : α → α)
    (h : ∀ x ∈ l, f x = x) : l.map f = l := by
  induction l with
  | nil => rfl
  | cons a l ih =>
    simp only [List.map_cons, h a (List.mem_cons_self a l)]
    rw [ih (fun x hx => h x (List.mem_cons_of_mem a hx))]

theorem filter_comm_map {α β : Type} (f : α → β) (p : β → Bool) (l : List α) :
    (l.map f).filter p = (l.filter fun a => p (f a)).map f := by
  induction l with
  | nil => rfl
  | cons a l ih =>
    by_cases h : p (f a) <;> simp [List.filter, h, ih]

theorem mem_insertSorted (a x : Int × Int × Nat) (l : List (Int × Int × Nat)) :
    x ∈ insertSorted a l ↔ x = a ∨ x ∈ l := by
  induction l with
  | nil => simp [insertSorted]
  | cons b bs ih =>
    by_cases h : keyLe a b
    · simp [insertSorted, h]
    · simp [insertSorted, h, ih]
      tauto

theorem mem_sortKeys (x : Int × Int × Nat) (l : List (Int × Int × Nat)) :
    x ∈ sortKeys l ↔ x ∈ l := by
  induction l with
  | nil => simp [sortKeys]
  | cons a bs ih =>
    show x ∈ insertSorted a (sortKeys bs) ↔ _
    rw [mem_insertSorted]
    simp [ih]

theorem withIds_length (i : Nat) (gs : List ((Int × Int × Nat) × Rat × Nat)) :
    (withIds i gs).length = gs.length := by
  induction gs generalizing i with
  | nil => rfl
  | cons g gs ih => simp [withIds, ih]

theorem withIds_map_averageId (i : Nat) (gs : List ((Int × Int × Nat) × Rat × Nat)) :
    (withIds i gs).map (·.AverageID) = List.range' i gs.length := by
  induction gs generalizing i with
  | nil => rfl
  | cons g gs ih =>
    rw [List.length_cons, List.range'_succ]
    simp [withIds, ih]

theorem withIds_mem (i : Nat) (gs : List ((Int × Int × Nat) × Rat × Nat))
    (g : (Int × Int × Nat) × Rat × Nat) (hg : g ∈ gs) :
    ∃ a ∈ withIds i gs, a.DefinitionID = g.1.1 ∧ a.Year = g.1.2.1 ∧
      a.Bucket = g.1.2.2 ∧ a.AverageScore = g.2.1 ∧ a.DataPointsCount = g.2.2 := by
  induction gs generalizing i with
  | nil => cases hg
  | cons g' gs ih =>
    rcases List.mem_cons.mp hg with h | h
    · subst h
      exact ⟨_, List.mem_cons_self _ _, rfl, rfl, rfl, rfl, rfl⟩
    · obtain ⟨a, ha, hf⟩ := ih (i + 1) h
      exact ⟨a, List.mem_cons_of_mem _ ha, hf⟩

theorem groupAgg_key_mem (key : ScoreRow → Int × Int × Nat) (rows : List ScoreRow)
    (k : Int × Int × Nat) (hk : k ∈ rows.map key) :
    (k, mkRat ((rows.filter fun r => decide (key r = k)).map (·.Score)).sum
        (rows.filter fun r => decide (key r = k)).length,
      (rows.filter fun r => decide (key r = k)).length) ∈ groupAgg key rows := by
  have h1 : k ∈ sortKeys (rows.map key).dedup :=
    (mem_sortKeys _ _).mpr (List.mem_dedup.mpr hk)
  exact List.mem_map_of_mem _ h1

theorem parseAll_length (rows rows0 : List ScoreRow)
    (h : parseAll rows = some rows0) : rows0.length = rows.length := by
  induction rows generalizing rows0 with
  | nil =>
    simp only [parseAll] at h
    cases h
    rfl
  | cons r rs ih =>
    simp only [parseAll] at h
    cases hd : toDatetime r.Date with
    | none => rw [hd] at h; cases h
    | some d =>
      rw [hd] at h
      obtain ⟨rest, hrest, hcons⟩ := Option.map_eq_some'.mp h
      subst hcons
      simp [ih rest hrest]

theorem parseAll_mem (rows rows0 : List ScoreRow) (r : ScoreRow) (d : CalDate)
    (h : parseAll rows = some rows0) (hr : r ∈ rows)
    (hd : toDatetime r.Date = some d) :
    { r with Date := DateVal.parsed d } ∈ rows0 := by
  induction rows generalizing rows0 with
  | nil => cases hr
  | cons r' rs ih =>
    simp only [parseAll] at h
    cases hd' : toDatetime r'.Date with
    | none => rw [hd'] at h; cases h
    | some d' =>
      rw [hd'] at h
      obtain ⟨rest, hrest, hcons⟩ := Option.map_eq_some'.mp h
      subst hcons
      rcases List.mem_cons.mp hr with h' | h'
      · subst h'
        rw [hd] at hd'
        cases hd'
        exact List.mem_cons_self _ _
      · exact List.mem_cons_of_mem _ (ih rest hrest h')

theorem parseAll_dates (rows rows0 : List ScoreRow)
    (h : parseAll rows = some rows0) :
    ∀ r0 ∈ rows0, ∃ d, r0.Date = DateVal.parsed d := by
  induction rows generalizing rows0 with
  | nil =>
    simp only [parseAll] at h
    cases h
    intro r0 hr0
    cases hr0
  | cons r rs ih =>
    simp only [parseAll] at h
    cases hd : toDatetime r.Date with
    | none => rw [hd] at h; cases h
    | some d =>
      rw [hd] at h
      obtain ⟨rest, hrest, hcons⟩ := Option.map_eq_some'.mp h
      subst hcons
      intro r0 hr0
      rcases List.mem_cons.mp hr0 with h' | h'
      · exact ⟨d, by rw [h']⟩
      · exact ih rest hrest r0 h'

theorem set_date_self (r : ScoreRow) (d : CalDate) (h : r.Date = DateVal.parsed d) :
    { r with Date := DateVal.parsed d } = r := by
  cases r
  simp_all

theorem parseAll_of_parsed (rows : List ScoreRow)
    (h : ∀ r ∈ rows, ∃ d, r.Date = DateVal.parsed d) :
    parseAll rows = some rows := by
  induction rows with
  | nil => rfl
  | cons r rs ih =>
    obtain ⟨d, hd⟩ := h r (List.mem_cons_self r rs)
    simp only [parseAll, hd, toDatetime]
    rw [ih (fun x hx => h x (List.mem_cons_of_mem r hx))]
    simp only [Option.map_some']
    rw [set_date_self r d hd]

theorem groupAgg_map_congr (key : ScoreRow → Int × Int × Nat) (f : ScoreRow → ScoreRow)
    (hk : ∀ r, key (f r) = key r) (hs : ∀ r, (f r).Score = r.Score)
    (rows : List ScoreRow) :
    groupAgg key (rows.map f) = groupAgg key rows := by
  simp only [groupAgg]
  have h1 : (rows.map f).map key = rows.map key := by
    rw [List.map_map]
    exact List.map_congr_left fun a _ => hk a
  rw [h1]
  apply List.map_congr_left
  intro k _
  have h2 : (rows.map f).filter (fun r => decide (key r = k)) =
      (rows.filter fun r => decide (key r = k)).map f := by
    rw [filter_comm_map]
    simp only [hk]
  rw [h2]
  have h3 : ((rows.filter fun r => decide (key r = k)).map f).map (·.Score) =
      (rows.filter fun r => decide (key r = k)).map (·.Score) := by
    rw [List.map_map]
    exact List.map_congr_left fun a _ => hs a
  simp [h3]

theorem setIsoCols_eq_self (r : ScoreRow)
    (h1 : r.Year = some (isoCalendar (parsedDate r.Date)).1)
    (h2 : r.WeekOfYear = some (isoCalendar (parsedDate r.Date)).2) :
    setIsoCols r = r := by
  cases r
  simp_all [setIsoCols]

theorem setMonthCol_eq_self (r : ScoreRow)
    (h : r.Month = some (parsedDate r.Date).month) :
    setMonthCol r = r := by
  cases r
  simp_all [setMonthCol]

theorem setHalfCol_eq_self (r : ScoreRow)
    (h : r.Half = some (((parsedDate r.Date).month - 1) / 6 + 1)) :
    setHalfCol r = r := by
  cases r
  simp_all [setHalfCol]

theorem computeAverages_some (scores rows3 : List ScoreRow) (W M S : List AvgRow)
    (h : computeAverages scores = some (rows3, W, M, S)) :
    ∃ rows0, parseAll scores = some rows0 ∧
      rows3 = ((rows0.map setIsoCols).map setMonthCol).map setHalfCol ∧
      W = withIds 1 (groupAgg weeklyKey (rows0.map setIsoCols)) ∧
      M = withIds 1 (groupAgg monthlyKey ((rows0.map setIsoCols).map setMonthCol)) ∧
      S = withIds 1 (groupAgg semiKey (((rows0.map setIsoCols).map setMonthCol).map setHalfCol)) := by
  cases hp : parseAll scores with
  | none => simp [computeAverages, hp] at h
  | some rows0 =>
    simp only [computeAverages, hp, Option.some.injEq, Prod.mk.injEq] at h
    obtain ⟨h1, h2, h3, h4⟩ := h
    exact ⟨rows0, rfl, h1.symm, h2.symm, h3.symm, h4.symm⟩

theorem computeAverages_mem_rows (scores rows3 : List ScoreRow) (W M S : List AvgRow)
    (h : computeAverages scores = some (rows3, W, M, S)) :
    ∀ x ∈ rows3, ∃ d, x.Date = DateVal.parsed d ∧
      x.Year = some (isoCalendar d).1 ∧ x.WeekOfYear = some (isoCalendar d).2 ∧
      x.Month = some d.month ∧ x.Half = some ((d.month - 1) / 6 + 1) := by
  obtain ⟨rows0, hp, h3, _, _, _⟩ := computeAverages_some _ _ _ _ _ h
  subst h3
  intro x hx
  obtain ⟨r2, hr2, hx2⟩ := List.mem_map.mp hx
  obtain ⟨r1, hr1, hr12⟩ := List.mem_map.mp hr2
  obtain ⟨r0, hr0, hr01⟩ := List.mem_map.mp hr1
  obtain ⟨d, hd⟩ := parseAll_dates _ _ hp r0 hr0
  refine ⟨d, ?_⟩
  subst hx2 hr12 hr01
  simp [setIsoCols, setMonthCol, setHalfCol, parsedDate, hd]

theorem computeAverages_fix (scores rows3 : List ScoreRow) (W M S : List AvgRow)
    (h : computeAverages scores = some (rows3, W, M, S)) :
    computeAverages rows3 = some (rows3, W, M, S) := by
  have hmem := computeAverages_mem_rows _ _ _ _ _ h
  obtain ⟨rows0, hp, hr3, hW, hM, hS⟩ := computeAverages_some _ _ _ _ _ h
  have hdates : ∀ r ∈ rows3, ∃ d, r.Date = DateVal.parsed d := by
    intro r hr
    obtain ⟨d, hd, _⟩ := hmem r hr
    exact ⟨d, hd⟩
  have hparse : parseAll rows3 = some rows3 := parseAll_of_parsed _ hdates
  have hiso : rows3.map setIsoCols = rows3 := by
    apply map_id_of_forall_mem
    intro x hx
    obtain ⟨d, hd, h1, h2, _, _⟩ := hmem x hx
    refine setIsoCols_eq_self x ?_ ?_
    · rw [hd]
      simpa [parsedDate] using h1
    · rw [hd]
      simpa [parsedDate] using h2
  have hmonth : rows3.map setMonthCol = rows3 := by
    apply map_id_of_forall_mem
    intro x hx
    obtain ⟨d, hd, _, _, h3, _⟩ := hmem x hx
    refine setMonthCol_eq_self x ?_
    rw [hd]
    simpa [parsedDate] using h3
  have hhalf : rows3.map setHalfCol = rows3 := by
    apply map_id_of_forall_mem
    intro x hx
    obtain ⟨d, hd, _, _, _, h4⟩ := hmem x hx
    refine setHalfCol_eq_self x ?_
    rw [hd]
    simpa [parsedDate] using h4
  have hw : groupAgg weeklyKey rows3 = groupAgg weeklyKey (rows0.map setIsoCols) := by
    rw [hr3]
    exact (groupAgg_map_congr weeklyKey setHalfCol (fun r => rfl) (fun r => rfl) _).trans
      (groupAgg_map_congr weeklyKey setMonthCol (fun r => rfl) (fun r => rfl) _)
  have hm : groupAgg monthlyKey rows3 =
      groupAgg monthlyKey ((rows0.map setIsoCols).map setMonthCol) := by
    rw [hr3]
    exact groupAgg_map_congr monthlyKey setHalfCol (fun r => rfl) (fun r => rfl) _
  have hs : groupAgg semiKey rows3 =
      groupAgg semiKey (((rows0.map setIsoCols).map setMonthCol).map setHalfCol) := by
    rw [hr3]
  simp only [computeAverages, hparse]
  rw [hiso, hmonth, hhalf, hw, hm, hs, ← hW, ← hM, ← hS]

theorem calcAverages_some (t t' : BehaviorTracker)
    (hne : t.daily_scores ≠ []) (h : calculate_all_averages t = Except.ok t') :
    ∃ rows3 W M S, computeAverages t.daily_scores = some (rows3, W, M, S) ∧
      t' = applyAverages t rows3 W M S := by
  unfold calculate_all_averages at h
  rw [if_neg hne] at h
  cases hc : computeAverages t.daily_scores with
  | none => rw [hc] at h; cases h
  | some q =>
    obtain ⟨rows3, W, M, S⟩ := q
    rw [hc] at h
    cases h
    exact ⟨rows3, W, M, S, rfl, rfl⟩

/-! ## Claim theorems -/

/-- C9: when the daily-scores table is empty, `calculate_all_averages`
returns without modifying or persisting any of the three average tables;
the whole tracker state, averages included, is returned unchanged. -/
theorem calc_on_empty_scores_is_noop (t : BehaviorTracker)
    (h : t.daily_scores = []) : calculate_all_averages t = Except.ok t := by
  simp [calculate_all_averages, h]

/-- C9 witness: on a tracker with no daily scores but a leftover weekly
average row, the aggregation run returns the state unchanged, stale
average table included. -/
theorem calc_on_empty_scores_is_noop_witness :
    staleTracker.daily_scores = [] ∧ staleTracker.weekly_averages ≠ [] ∧
    calculate_all_averages staleTracker = Except.ok staleTracker :=
  ⟨rfl, by decide, calc_on_empty_scores_is_noop staleTracker rfl⟩

/-- C8: adding a subject whose label, after trimming, differs from an
existing subject's stored label only in letter case is a no-op: the whole
tracker state, the subjects table in particular, is unchanged. -/
theorem add_subject_case_insensitive_noop (now : String) (t : BehaviorTracker)
    (label : String) (s : SubjectRow) (hs : s ∈ t.subjects)
    (hcase : pyLower (pyStrip label) = pyLower s.SubjectLabel) :
    add_subject now t label = t := by
  have hmem : s ∈ t.subjects.filter
      fun r => pyLower r.SubjectLabel == pyLower (pyStrip label) := by
    apply List.mem_filter.mpr
    refine ⟨hs, ?_⟩
    rw [hcase]
    exact beq_self_eq_true _
  by_cases he : pyStrip label = ""
  · simp [add_subject, he]
  · simp only [add_subject]
    rw [if_neg he, if_pos (List.ne_nil_of_mem hmem)]

/-- C8 witness: with subject `Rex` stored, adding `" REX "` is a no-op. -/
theorem add_subject_case_insensitive_noop_witness :
    add_subject "ts" sampleTracker " REX " = sampleTracker :=
  add_subject_case_insensitive_noop "ts" sampleTracker " REX "
    ⟨1, "Rex", "2023-01-01 10:00:00"⟩ (by decide) (by decide)

/-- C3: every malformed input (empty required string after trimming,
unparseable numeric id, out-of-range score, or unresolved foreign key)
makes the requested mutation a no-op: the tracker, in-memory tables and
persisted files alike, is returned unchanged and no exception occurs. -/
theorem malformed_mutation_is_silent_noop (t : BehaviorTracker)
    (now label sid name desc did date sc notes : String) :
    (pyStrip label = "" → add_subject now t label = t) ∧
    ((pyStrip name = "" ∨ pyInt sid = none ∨
        ∃ n, pyInt sid = some n ∧ (t.subjects.filter fun r => r.SubjectID == n) = []) →
      add_behavior_definition t sid name desc = t) ∧
    ((pyInt did = none ∨ pyInt sc = none ∨
        (∃ n, pyInt sc = some n ∧ ¬ (1 ≤ n ∧ n ≤ 10)) ∨
        (∃ n, pyInt did = some n ∧ (t.definitions.filter fun r => r.DefinitionID == n) = [])) →
      log_score t did date sc notes = Except.ok t) := by
  refine ⟨?_, ?_, ?_⟩
  · intro h
    simp [add_subject, h]
  · intro h
    rcases h with h | h | ⟨n, hn, hf⟩
    · simp [add_behavior_definition, h]
    · by_cases hname : pyStrip name = "" <;>
        simp [add_behavior_definition, hname, h]
    · by_cases hname : pyStrip name = "" <;>
        simp [add_behavior_definition, hname, hn, hf]
  · intro h
    rcases h with h | h | ⟨n, hn, hr⟩ | ⟨n, hn, hf⟩
    · cases hsc : pyInt sc <;> simp [log_score, h, hsc]
    · cases hdid : pyInt did <;> simp [log_score, h, hdid]
    · cases hdid : pyInt did with
      | none => simp [log_score, hdid, hn]
      | some m => simp [log_score, hdid, hn, hr]
    · cases hsc : pyInt sc with
      | none => simp [log_score, hn, hsc]
      | some m =>
        by_cases hrange : 1 ≤ m ∧ m ≤ 10
        · simp [log_score, hn, hsc, hrange, hf]
        · simp [log_score, hn, hsc, hrange]

/-- C3 witness: a blank subject label, a behavior definition referencing
the missing subject 7, and a score of 11 are each silently rejected on a
concrete tracker. -/
theorem malformed_mutation_is_silent_noop_witness :
    add_subject "ts" sampleTracker "   " = sampleTracker ∧
    add_behavior_definition sampleTracker "7" "Sit" "" = sampleTracker ∧
    log_score sampleTracker "1" "2023-01-01" "11" "" = Except.ok sampleTracker := by
  obtain ⟨h1, h2, h3⟩ := malformed_mutation_is_silent_noop sampleTracker
    "ts" "   " "7" "Sit" "" "1" "2023-01-01" "11" ""
  refine ⟨h1 (by decide), h2 ?_, h3 ?_⟩
  · exact Or.inr (Or.inr ⟨7, by decide, by decide⟩)
  · exact Or.inr (Or.inr (Or.inl ⟨11, by decide, by decide⟩))

/-- C7: `log_score` leaves all state unchanged for any parsed score
outside `[1, 10]`, and accepts the boundary scores 1 and 10 — appending
the new row and persisting it — when the definition id resolves and the
date parses. -/
theorem log_score_range_boundaries (t : BehaviorTracker) (did date sc notes : String) :
    (∀ n, pyInt sc = some n → ¬ (1 ≤ n ∧ n ≤ 10) →
      log_score t did date sc notes = Except.ok t) ∧
    (∀ m n d, pyInt did = some m →
      (t.definitions.filter fun r => r.DefinitionID == m) ≠ [] →
      pyInt sc = some n → (n = 1 ∨ n = 10) → parseYMD date = some d →
      log_score t did date sc notes =
        Except.ok (appendScore t (scoreEntry t m n d notes))) := by
  constructor
  · intro n hn hr
    cases hdid : pyInt did with
    | none => simp [log_score, hdid, hn]
    | some m => simp [log_score, hdid, hn, hr]
  · intro m n d hm hf hn hb hd
    have hrange : 1 ≤ n ∧ n ≤ 10 := by rcases hb with h | h <;> omega
    simp [log_score, hm, hn, hrange, hf, hd]

/-- C7 witness: on a tracker with definition 1, score 0 is rejected with
no state change and score 10 is accepted and appended. -/
theorem log_score_range_boundaries_witness :
    log_score sampleTracker "1" "2023-01-01" "0" "" = Except.ok sampleTracker ∧
    log_score sampleTracker "1" "2023-01-01" "10" "" =
      Except.ok (appendScore sampleTracker
        (scoreEntry sampleTracker 1 10 ⟨2023, 1, 1⟩ "")) := by
  constructor
  · exact (log_score_range_boundaries sampleTracker "1" "2023-01-01" "0" "").1
      0 (by decide) (by decide)
  · exact (log_score_range_boundaries sampleTracker "1" "2023-01-01" "10" "").2
      1 10 ⟨2023, 1, 1⟩ (by decide) (by decide) (by decide) (Or.inr rfl) (by decide)

/-- C2 counterexample: `log_score` with a valid definition id and score
but an unparseable date string propagates the date-parse failure (the
`pd.to_datetime` call on engine.py line 102 sits outside the `try`
block), so the operation does raise for this bad input. -/
theorem log_score_raises_on_unparseable_date :
    log_score sampleTracker "1" "notadate" "5" "" = Except.error "DateParseError" := by
  rfl

/-- C2 amended: `add_subject` and `add_behavior_definition` return a
tracker state for every string input (no exception), and `log_score`
returns without an exception for every input that its guards reject
before the date parse — an unparseable definition id or score, an
out-of-range score, or an unresolved definition id, each regardless of
the date string — as well as for every input whose date string is
parseable; an exception occurs only when an unparseable date string
reaches the unguarded `pd.to_datetime` call of engine.py line 102. -/
theorem mutations_return_without_raising (t : BehaviorTracker)
    (now label sid name desc did date sc notes : String) :
    (∃ t', add_subject now t label = t') ∧
    (∃ t', add_behavior_definition t sid name desc = t') ∧
    ((pyInt did = none ∨ pyInt sc = none ∨
        (∃ n, pyInt sc = some n ∧ ¬ (1 ≤ n ∧ n ≤ 10)) ∨
        (∃ n, pyInt did = some n ∧ (t.definitions.filter fun r => r.DefinitionID == n) = []) ∨
        (parseYMD date).isSome = true) →
      ∃ t', log_score t did date sc notes = Except.ok t') ∧
    (∀ e, log_score t did date sc notes = Except.error e → parseYMD date = none) := by
  refine ⟨⟨_, rfl⟩, ⟨_, rfl⟩, ?_, ?_⟩
  · intro h
    rcases h with h | h | ⟨n, hn, hr⟩ | ⟨n, hn, hf⟩ | h
    · cases hsc : pyInt sc <;> exact ⟨t, by simp [log_score, h, hsc]⟩
    · cases hdid : pyInt did <;> exact ⟨t, by simp [log_score, h, hdid]⟩
    · cases hdid : pyInt did with
      | none => exact ⟨t, by simp [log_score, hdid, hn]⟩
      | some m => exact ⟨t, by simp [log_score, hdid, hn, hr]⟩
    · cases hsc : pyInt sc with
      | none => exact ⟨t, by simp [log_score, hn, hsc]⟩
      | some m =>
        by_cases hrange : 1 ≤ m ∧ m ≤ 10
        · exact ⟨t, by simp [log_score, hn, hsc, hrange, hf]⟩
        · exact ⟨t, by simp [log_score, hn, hsc, hrange]⟩
    · cases hdid : pyInt did with
      | none =>
        cases hsc : pyInt sc <;> exact ⟨t, by simp [log_score, hdid, hsc]⟩
      | some m =>
        cases hsc : pyInt sc with
        | none => exact ⟨t, by simp [log_score, hdid, hsc]⟩
        | some n =>
          by_cases hr : 1 ≤ n ∧ n ≤ 10
          · by_cases hf : (t.definitions.filter fun r => r.DefinitionID == m) = []
            · exact ⟨t, by simp [log_score, hdid, hsc, hr, hf]⟩
            · obtain ⟨d, hd'⟩ := Option.isSome_iff_exists.mp h
              exact ⟨appendScore t (scoreEntry t m n d notes),
                by simp [log_score, hdid, hsc, hr, hf, hd']⟩
          · exact ⟨t, by simp [log_score, hdid, hsc, hr]⟩
  · intro e he
    cases hdid : pyInt did with
    | none => cases hsc : pyInt sc <;> simp [log_score, hdid, hsc] at he
    | some m =>
      cases hsc : pyInt sc with
      | none => simp [log_score, hdid, hsc] at he
      | some n =>
        by_cases hr : 1 ≤ n ∧ n ≤ 10
        · by_cases hf : (t.definitions.filter fun r => r.DefinitionID == m) = []
          · simp [log_score, hdid, hsc, hr, hf] at he
          · cases hd : parseYMD date with
            | none => rfl
            | some d => simp [log_score, hdid, hsc, hr, hf, hd] at he
        · simp [log_score, hdid, hsc, hr] at he

/-- C2 witness: an unparseable definition id paired with an unparseable
date string is still handled without an exception (the id guard rejects
it before the date parse is reached). -/
theorem mutations_return_without_raising_witness :
    pyInt "abc" = none ∧ parseYMD "notadate" = none ∧
    ∃ t', log_score sampleTracker "abc" "notadate" "5" "" = Except.ok t' := by
  obtain ⟨-, -, h3, -⟩ := mutations_return_without_raising sampleTracker
    "ts" "Bob" "1" "Sit" "" "abc" "notadate" "5" ""
  exact ⟨by decide, by decide, h3 (Or.inl (by decide))⟩

/-- C1: evaluation of the code at the failing input.  For a single score
dated 2023-01-01 the monthly and semi-annual average rows carry
`Year = 2022` — the ISO week-numbering year assigned on engine.py line
113 and reused by the `groupby` calls on lines 121 and 127 — although
the calendar year of the contributing date is 2023.  The claim that the
monthly and semi-annual `Year` equals the calendar year is false of the
code. -/
theorem monthly_and_semi_year_use_iso_week_year :
    (calculate_all_averages sampleLogged).map (·.monthly_averages) =
      Except.ok [{ AverageID := 1, DefinitionID := 1, Year := 2022, Bucket := 1,
                   AverageScore := mkRat 5 1, DataPointsCount := 1 }] ∧
    (calculate_all_averages sampleLogged).map (·.semi_annual_averages) =
      Except.ok [{ AverageID := 1, DefinitionID := 1, Year := 2022, Bucket := 1,
                   AverageScore := mkRat 5 1, DataPointsCount := 1 }] ∧
    (parseYMD "2023-01-01").map (·.year) = some 2023 ∧ (2022 : Int) ≠ 2023 := by
  refine ⟨rfl, rfl, by decide, by decide⟩

/-- C4: the weekly aggregation buckets every daily-score row under the
ISO-8601 week-numbering year and week number of its date, and the ISO
calendar places 2023-01-01 (a Sunday) in week 52 of 2022. -/
theorem weekly_buckets_by_iso_calendar (t t' : BehaviorTracker) (r : ScoreRow)
    (d : CalDate) (h : calculate_all_averages t = Except.ok t')
    (hr : r ∈ t.daily_scores) (hd : toDatetime r.Date = some d) :
    (∃ a ∈ t'.weekly_averages, a.DefinitionID = r.DefinitionID ∧
      a.Year = (isoCalendar d).1 ∧ a.Bucket = (isoCalendar d).2) ∧
    isoCalendar ⟨2023, 1, 1⟩ = (2022, 52) := by
  refine ⟨?_, by decide⟩
  have hne : t.daily_scores ≠ [] := List.ne_nil_of_mem hr
  obtain ⟨rows3, W, M, S, hc, ht'⟩ := calcAverages_some t t' hne h
  obtain ⟨rows0, hp, hr3, hW, hM, hS⟩ := computeAverages_some _ _ _ _ _ hc
  have hr0 : ({ r with Date := DateVal.parsed d }) ∈ rows0 :=
    parseAll_mem _ _ _ _ hp hr hd
  have hk : weeklyKey (setIsoCols { r with Date := DateVal.parsed d }) =
      (r.DefinitionID, (isoCalendar d).1, (isoCalendar d).2) := rfl
  have hkm : (r.DefinitionID, (isoCalendar d).1, (isoCalendar d).2) ∈
      (rows0.map setIsoCols).map weeklyKey := by
    rw [← hk]
    exact List.mem_map_of_mem _ (List.mem_map_of_mem _ hr0)
  have hgm := groupAgg_key_mem weeklyKey (rows0.map setIsoCols) _ hkm
  obtain ⟨a, ha, hf1, hf2, hf3, _, _⟩ := withIds_mem 1 _ _ hgm
  refine ⟨a, ?_, hf1, hf2, hf3⟩
  rw [ht']
  show a ∈ W
  rw [hW]
  exact ha

/-- C4 witness: with a single score dated 2023-01-01 the weekly table
holds a row for definition 1 in bucket (2022, 52). -/
theorem weekly_buckets_by_iso_calendar_witness :
    ∃ t', calculate_all_averages sampleLogged = Except.ok t' ∧
      ∃ a ∈ t'.weekly_averages, a.DefinitionID = 1 ∧ a.Year = 2022 ∧ a.Bucket = 52 := by
  obtain ⟨t', h⟩ : ∃ x, calculate_all_averages sampleLogged = Except.ok x := ⟨_, rfl⟩
  have hiso : isoCalendar ⟨2023, 1, 1⟩ = (2022, 52) := by decide
  have hw := (weekly_buckets_by_iso_calendar sampleLogged t' sampleRow ⟨2023, 1, 1⟩ h
    (by decide) (by decide)).1
  obtain ⟨a, ha, h1, h2, h3⟩ := hw
  refine ⟨t', h, a, ha, ?_, ?_, ?_⟩
  · simpa [sampleRow] using h1
  · rw [h2, hiso]
  · rw [h3, hiso]

/-- C5: `calculate_all_averages` is idempotent — after one successful run
the state is a fixed point, so a second run with the daily-scores table
unchanged returns the very same state, all three average tables (rows,
`AverageID` assignment, `AverageScore` and `DataPointsCount` values)
included. -/
theorem calculate_all_averages_idempotent (t t' : BehaviorTracker)
    (h : calculate_all_averages t = Except.ok t') :
    calculate_all_averages t' = Except.ok t' := by
  by_cases hne : t.daily_scores = []
  · have ht : calculate_all_averages t = Except.ok t := by
      simp [calculate_all_averages, hne]
    rw [ht] at h
    injection h with h'
    subst h'
    exact ht
  · obtain ⟨rows3, W, M, S, hc, ht'⟩ := calcAverages_some t t' hne h
    have hfix := computeAverages_fix _ _ _ _ _ hc
    subst ht'
    have hd : (applyAverages t rows3 W M S).daily_scores = rows3 := rfl
    unfold calculate_all_averages
    rw [hd]
    by_cases h3 : rows3 = []
    · rw [if_pos h3]
    · rw [if_neg h3, hfix]
      rfl

/-- C5 witness: running the aggregation twice from a one-row score table
returns the same state both times. -/
theorem calculate_all_averages_idempotent_witness :
    ∃ t1, calculate_all_averages sampleLogged = Except.ok t1 ∧
      calculate_all_averages t1 = Except.ok t1 := by
  obtain ⟨t1, h1⟩ : ∃ x, calculate_all_averages sampleLogged = Except.ok x := ⟨_, rfl⟩
  exact ⟨t1, h1, calculate_all_averages_idempotent _ _ h1⟩

/-- C6: every successful aggregation run over a non-empty daily-scores
table assigns each average table the dense `AverageID` sequence `1..N`,
and the resulting tables are a function of the daily-scores input alone,
hence deterministic across runs. -/
theorem average_ids_dense_and_deterministic (t t' : BehaviorTracker)
    (h : calculate_all_averages t = Except.ok t') (hne : t.daily_scores ≠ []) :
    t'.weekly_averages.map (·.AverageID) = List.range' 1 t'.weekly_averages.length ∧
    t'.monthly_averages.map (·.AverageID) = List.range' 1 t'.monthly_averages.length ∧
    t'.semi_annual_averages.map (·.AverageID) =
      List.range' 1 t'.semi_annual_averages.length ∧
    ∀ t2 t2', t2.daily_scores = t.daily_scores →
      calculate_all_averages t2 = Except.ok t2' →
      t2'.weekly_averages = t'.weekly_averages ∧
      t2'.monthly_averages = t'.monthly_averages ∧
      t2'.semi_annual_averages = t'.semi_annual_averages := by
  obtain ⟨rows3, W, M, S, hc, ht'⟩ := calcAverages_some t t' hne h
  obtain ⟨rows0, hp, hr3, hW, hM, hS⟩ := computeAverages_some _ _ _ _ _ hc
  subst ht'
  refine ⟨?_, ?_, ?_, ?_⟩
  · show W.map (·.AverageID) = List.range' 1 W.length
    rw [hW, withIds_map_averageId, withIds_length]
  · show M.map (·.AverageID) = List.range' 1 M.length
    rw [hM, withIds_map_averageId, withIds_length]
  · show S.map (·.AverageID) = List.range' 1 S.length
    rw [hS, withIds_map_averageId, withIds_length]
  · intro t2 t2' h2 hc2
    have hne2 : t2.daily_scores ≠ [] := by rw [h2]; exact hne
    obtain ⟨rows3', W', M', S', hc2', ht2'⟩ := calcAverages_some t2 t2' hne2 hc2
    rw [h2, hc] at hc2'
    simp only [Option.some.injEq, Prod.mk.injEq] at hc2'
    obtain ⟨-, e2, e3, e4⟩ := hc2'
    subst ht2'
    exact ⟨e2.symm, e3.symm, e4.symm⟩

/-- C6 witness: the weekly table built from a one-row score table carries
the dense id sequence. -/
theorem average_ids_dense_and_deterministic_witness :
    ∃ t', calculate_all_averages sampleLogged = Except.ok t' ∧
      t'.weekly_averages.map (·.AverageID) = List.range' 1 t'.weekly_averages.length := by
  obtain ⟨t', h⟩ : ∃ x, calculate_all_averages sampleLogged = Except.ok x := ⟨_, rfl⟩
  exact ⟨t', h, (average_ids_dense_and_deterministic sampleLogged t' h (by decide)).1⟩

/-- C10: a successful aggregation run over a non-empty daily-scores table
mutates the in-memory daily-scores table in place — every row ends with a
parsed `Date` and populated `Year`, `WeekOfYear`, `Month` and `Half`
helper columns — while the persisted daily-scores, subjects and
definitions files are untouched and exactly the three average tables are
persisted. -/
theorem calc_mutates_scores_in_memory_only (t t' : BehaviorTracker)
    (h : calculate_all_averages t = Except.ok t') (hne : t.daily_scores ≠ []) :
    (∀ r ∈ t'.daily_scores, (∃ d, r.Date = DateVal.parsed d) ∧
      r.Year.isSome = true ∧ r.WeekOfYear.isSome = true ∧
      r.Month.isSome = true ∧ r.Half.isSome = true) ∧
    t'.daily_scores.length = t.daily_scores.length ∧
    t'.files.daily_scores = t.files.daily_scores ∧
    t'.files.subjects = t.files.subjects ∧
    t'.files.definitions = t.files.definitions ∧
    t'.files.weekly_averages = t'.weekly_averages ∧
    t'.files.monthly_averages = t'.monthly_averages ∧
    t'.files.semi_annual_averages = t'.semi_annual_averages := by
  obtain ⟨rows3, W, M, S, hc, ht'⟩ := calcAverages_some t t' hne h
  have hmem := computeAverages_mem_rows _ _ _ _ _ hc
  obtain ⟨rows0, hp, hr3, -, -, -⟩ := computeAverages_some _ _ _ _ _ hc
  subst ht'
  refine ⟨?_, ?_, rfl, rfl, rfl, rfl, rfl, rfl⟩
  · intro r hr
    obtain ⟨d, hd, h1, h2, h3, h4⟩ := hmem r hr
    exact ⟨⟨d, hd⟩, by simp [h1], by simp [h2], by simp [h3], by simp [h4]⟩
  · show rows3.length = t.daily_scores.length
    rw [hr3]
    simp [parseAll_length _ _ hp]

/-- C10 witness: on a one-row score table the run parses the in-memory
row, leaves the daily-scores file as it was, and persists the weekly
table it computed. -/
theorem calc_mutates_scores_in_memory_only_witness :
    ∃ t', calculate_all_averages sampleLogged = Except.ok t' ∧
      t'.files.daily_scores = sampleLogged.files.daily_scores ∧
      t'.files.weekly_averages = t'.weekly_averages ∧
      ∀ r ∈ t'.daily_scores, ∃ d, r.Date = DateVal.parsed d := by
  obtain ⟨t', h⟩ : ∃ x, calculate_all_averages sampleLogged = Except.ok x := ⟨_, rfl⟩
  have hh := calc_mutates_scores_in_memory_only sampleLogged t' h (by decide)
  exact ⟨t', h, hh.2.2.1, hh.2.2.2.2.2.1, fun r hr => (hh.1 r hr).1⟩
